import Mathlib

/-!
Verification development for the climateRe land-use ensemble editor.

The definitions below are a shallow embedding of the Python sources
`old_utils/ulanduseEdit.py` and `utils/ueditsetupEnsemble.py`.  Python
machine integers are modelled by `Int`/`Nat`, the `percent` value (a
Python float constrained by the validators to the interval from 0 to
100) is modelled by `Rat`, and every library effect is passed in as an
explicit parameter: the numpy sampler `np.random.choice` becomes a
`draw` function parameter, the filesystem becomes explicit `isfile` /
record parameters, and path normalisation becomes a `normp` parameter.
-/

/-- A 2-D categorical land-use grid: `landuse_data` in the source.
Cell values are addressed `(row, col)` exactly as numpy indexes
`lu_arr[r, c]`. -/
structure Grid where
  rows : Nat
  cols : Nat
  val : Nat → Nat → Int

/-- Single in-place cell assignment `lu_arr[r, c] = v`. -/
def Grid.set (g : Grid) (r c : Nat) (v : Int) : Grid :=
  { g with val := fun r' c' => if r' = r ∧ c' = c then v else g.val r' c' }

/-- Sequence of cell assignments: the vectorised numpy statement
`lu_arr[r0 + flat_idx // n_cols, c0 + flat_idx % n_cols] = new_val`
writes `new_val` at every target pair. -/
def writeCells (v : Int) (g : Grid) (ts : List (Nat × Nat)) : Grid :=
  ts.foldl (fun a t => a.set t.1 t.2 v) g

/-- Lines 180-183 of `ulanduseEdit.py`:
`r0 = max(y_min, 0); r1 = min(y_max, shape0 - 1)`,
`c0 = max(x_min, 0); c1 = min(x_max, shape1 - 1)`, and the early
return when `r0 > r1 or c0 > c1`.  On success it packages the clamped
rectangle as `(r0, c0, n_rows, n_cols)` with
`n_rows = r1 - r0 + 1` and `n_cols = c1 - c0 + 1` (lines 184-185). -/
def clampRegion (rows cols : Nat) (x_min y_min x_max y_max : Int) :
    Option (Nat × Nat × Nat × Nat) :=
  let r0 := max y_min 0
  let r1 := min y_max ((rows : Int) - 1)
  let c0 := max x_min 0
  let c1 := min x_max ((cols : Int) - 1)
  if r0 > r1 ∨ c0 > c1 then none
  else some (r0.toNat, c0.toNat, (r1 - r0 + 1).toNat, (c1 - c0 + 1).toNat)

/-- Python `int(q)`: truncation of a real toward zero. -/
def ratTrunc (q : ℚ) : ℤ :=
  if 0 ≤ q then ⌊q⌋ else -⌊-q⌋

/-- Line 187: `n = int(n_pts * percent / 100)`. -/
def sampleSize (nPts : Nat) (percent : ℚ) : ℤ :=
  ratTrunc ((nPts : ℚ) * percent / 100)

/-- The call `np.random.choice(n_pts, n, replace=False)` (line 190).
The actual random draw is the parameter `draw`; numpy raises a
`ValueError` - modelled by `none` - when the requested size is
negative or exceeds the population. -/
def npChoice (draw : Nat → Nat → List Nat) (nPts : Nat) (n : ℤ) :
    Option (List Nat) :=
  if 0 ≤ n ∧ n.toNat ≤ nPts then some (draw nPts n.toNat) else none

/-- Specification of a without-replacement uniform draw: whenever the
requested size is at most the population, the returned flat indices
are pairwise distinct, exactly `n` many, and all below `nPts`. -/
def DrawSpec (draw : Nat → Nat → List Nat) : Prop :=
  ∀ nPts n, n ≤ nPts →
    (draw nPts n).Nodup ∧ (draw nPts n).length = n ∧
      ∀ i ∈ draw nPts n, i < nPts

/-- Line 191 unflattening: flat index `i` maps to the cell
`(r0 + i // n_cols, c0 + i % n_cols)`. -/
def targetCell (r0 c0 nCols : Nat) (i : Nat) : Nat × Nat :=
  (r0 + i / nCols, c0 + i % nCols)

/-- Lines 171-192, `_apply_region_to_array`: clamp the rectangle,
compute the sample size, draw that many distinct flat indices, write
`new_val` at the corresponding cells and return the count.  `none`
models an uncaught exception from `np.random.choice`. -/
def _apply_region_to_array (draw : Nat → Nat → List Nat) (g : Grid)
    (x_min y_min x_max y_max new_val : Int) (percent : ℚ) :
    Option (Grid × ℤ) :=
  match clampRegion g.rows g.cols x_min y_min x_max y_max with
  | none => some (g, 0)
  | some (r0, c0, nRows, nCols) =>
    let nPts := nRows * nCols
    let n := sampleSize nPts percent
    if n = 0 then some (g, 0)
    else
      match npChoice draw nPts n with
      | none => none
      | some flat_idx =>
        some (writeCells new_val g (flat_idx.map (targetCell r0 c0 nCols)), n)

/-- Canonical realisation of a without-replacement draw, used by the
concrete witnesses: ignore the population and return `range n`. -/
def rangeDraw : Nat → Nat → List Nat := fun _ n => List.range n

/-- One recorded edit: the tuple
`(x_min, y_min, x_max, y_max, new_val, percent)` appended to
`applied_changes` / `bulk_applied_changes`. -/
structure Change where
  x_min : Int
  y_min : Int
  x_max : Int
  y_max : Int
  new_val : Int
  percent : ℚ
deriving DecidableEq

/-- Python `str.split(sep)` for a one-character separator, on the
character list of the string. -/
def splitOnChar (sep : Char) : List Char → List (List Char)
  | [] => [[]]
  | ch :: rest =>
    let r := splitOnChar sep rest
    if ch = sep then [] :: r
    else
      match r with
      | [] => [[ch]]
      | h :: t => (ch :: h) :: t

/-- The comma split of a spec string, line 200. -/
def pySplit (s : String) : List String :=
  (splitOnChar ',' s.toList).map List.asString

/-- Lines 200-216: parse and validate one `--apply` specification.
`pyInt` and `pyFloat` are the Python `int(..)` / `float(..)` text
parsers, passed in as library parameters (`none` models a raised
`ValueError`); `legend` is the list of valid category codes parsed
from the legend attribute.  `none` models any of the four fatal
validation failures (wrong field count, non-numeric field, percent out
of range, unknown category). -/
def parse_apply_spec (pyInt : String → Option Int)
    (pyFloat : String → Option ℚ) (legend : List Int) (spec : String) :
    Option Change :=
  match pySplit spec with
  | [s1, s2, s3, s4, s5, s6] =>
    match pyInt s1, pyInt s2, pyInt s3, pyInt s4, pyInt s5, pyFloat s6 with
    | some xm, some ym, some xM, some yM, some v, some p =>
      if ¬ (0 ≤ p ∧ p ≤ 100) then none
      else if v ∉ legend then none
      else some ⟨xm, ym, xM, yM, v, p⟩
    | _, _, _, _, _, _ => none
  | _ => none

/-- Outcome of the batch/replay block (lines 198-230): either the
process called `sys.exit(code)` with the dataset file untouched (the
in-memory grid at that moment is carried for inspection), or the loop
completed, the grid was written back and synced, and the process
exited 0. -/
inductive BatchOutcome where
  | exited (code : Nat) (mem : Grid)
  | saved (g : Grid)

/-- True exactly when the dataset file was written. -/
def BatchOutcome.wrote : BatchOutcome → Bool
  | .saved _ => true
  | .exited _ _ => false

/-- True exactly when the run aborted with exit code 1. -/
def BatchOutcome.abort1 : BatchOutcome → Bool
  | .exited 1 _ => true
  | _ => false

/-- The CLI/batch loop, lines 198-230: each `--apply` spec is parsed
and validated (`sys.exit(1)` on any failure, before any disk write);
a valid spec is applied to the in-memory grid copy; only after every
spec succeeded is the array written back (`landuse[:] = landuse_data;
data.sync()`) and the process exits 0.  An exception escaping
`_apply_region_to_array` (impossible for validated inputs, claim C10)
would likewise end the process without the final write. -/
def cli_batch_mode (pyInt : String → Option Int)
    (pyFloat : String → Option ℚ) (legend : List Int)
    (draw : Nat → Nat → List Nat) :
    List String → Grid → BatchOutcome
  | [], g => .saved g
  | spec :: rest, g =>
    match parse_apply_spec pyInt pyFloat legend spec with
    | none => .exited 1 g
    | some ch =>
      match _apply_region_to_array draw g ch.x_min ch.y_min ch.x_max
          ch.y_max ch.new_val ch.percent with
      | none => .exited 1 g
      | some (g2, _) => cli_batch_mode pyInt pyFloat legend draw rest g2

/-- Decimal digit characters of `n`, most significant first, computed
with a structural fuel argument (`fuel` at least the digit count). -/
def natCharsF : Nat → Nat → List Char
  | 0, _ => []
  | fuel + 1, n =>
    if n < 10 then [Nat.digitChar n]
    else natCharsF fuel (n / 10) ++ [Nat.digitChar (n % 10)]

/-- Decimal rendering of a natural number, as Python formats ints. -/
def natChars (n : Nat) : List Char := natCharsF (n + 1) n

/-- Python f-string rendering of an int field such as x_min. -/
def intStr (i : Int) : String :=
  if i < 0 then ('-' :: natChars i.natAbs).asString
  else (natChars i.toNat).asString

/-- Left-pad a digit string with zeros to width 6. -/
def padTo6 (l : List Char) : List Char :=
  List.replicate (6 - l.length) '0' ++ l

/-- Remove trailing zero characters. -/
def stripZeros (l : List Char) : List Char :=
  (l.reverse.dropWhile (fun ch => ch = '0')).reverse

/-- Fractional digits emitted for a scaled remainder `fp` (six
decimal places with trailing zeros removed). -/
def fracPart (fp : Nat) : List Char := stripZeros (padTo6 (natChars fp))

/-- The percent value scaled by one million, computed from the exact
rational representation.  For every value whose reduced denominator
divides 10^6 - which covers all percent values the editor validates
and records, since Python floats carry short decimals exactly through
this range - it equals `percent * 1000000`. -/
def gScaled (q : ℚ) : ℤ := q.num * ((1000000 / q.den : Nat) : ℤ)

/-- Python float formatting with the g conversion applied to the
percent field at line 478, modelled on the nonnegative short-decimal
domain the percent validator admits: fixed-point rendering, trailing
zeros suppressed and no decimal point for integer values. -/
def formatG (q : ℚ) : String :=
  let ip := (gScaled q).toNat / 1000000
  let fp := (gScaled q).toNat % 1000000
  if fp = 0 then (natChars ip).asString
  else (natChars ip ++ '.' :: fracPart fp).asString

/-- One apply token of the replay command: the literal option name
followed by the six comma-separated fields of the entry, with the
percent field rendered by `formatG` (line 478). -/
def applyToken (ch : Change) : String :=
  "--apply " ++ intStr ch.x_min ++ "," ++ intStr ch.y_min ++ "," ++
    intStr ch.x_max ++ "," ++ intStr ch.y_max ++ "," ++
    intStr ch.new_val ++ "," ++ formatG ch.percent

/-- The per-entry tokens of the replay command, in ledger order. -/
def replayTokens (ledger : List Change) : List String :=
  ledger.map applyToken

/-- The space-joined token string over the full ledger, lines 477-479. -/
def render_replay (ledger : List Change) : String :=
  String.intercalate " " (replayTokens ledger)

/-- A configuration file candidate as the registry scan sees it: the
glob result path, its basename and directory, whether `open/read`
succeeded, and the outcomes of the two `re.search` calls for
`domname` and `dirter` on its content (library calls on file content,
passed in as data). -/
structure InFileEntry where
  path : String
  fname : String
  fdir : String
  readOk : Bool
  domname? : Option String
  dirter? : Option String
deriving DecidableEq

/-- One scanned ensemble member (the dict built at lines 137-145). -/
structure Member where
  num : Nat
  in_file : String
  in_fname : String
  domname : String
  dirter : String
  nc_file : String
  nc_exists : Bool
deriving DecidableEq

/-- Python `fname[0].isdigit()` (line 117); glob basenames are never
empty. -/
def startsWithDigit (s : String) : Bool :=
  match s.toList with
  | [] => false
  | ch :: _ => ch.isDigit

/-- Numeric value of the leading digit run of a basename, as parsed
by the anchored digit regex at line 135 and converted by int; 0 when
the run is empty (line 138). -/
def leadingNum (s : String) : Nat :=
  (s.toList.takeWhile Char.isDigit).foldl
    (fun a ch => 10 * a + (ch.toNat - 48)) 0

/-- POSIX `os.path.isabs`. -/
def isAbs (p : String) : Bool := p.startsWith "/"

/-- POSIX `os.path.join(b, p)` for two components. -/
def pathJoin (b p : String) : String :=
  if isAbs p then p
  else if b = "" then p
  else if b.endsWith "/" then b ++ p
  else b ++ "/" ++ p

/-- Lines 52-57, `resolve_path`: absolute paths pass through,
relative ones are joined to `base_dir` and normalised.  `normp` is
the `os.path.normpath` library function, passed in as a parameter. -/
def resolve_path (normp : String → String) (base p : String) : String :=
  if isAbs p then p else normp (pathJoin base p)

/-- Ordering of members by their numeric ordinal field, the sort key
of line 147. -/
def memberLe (a b : Member) : Prop := a.num ≤ b.num

instance : DecidableRel memberLe := fun a b => Nat.decLe a.num b.num

instance : IsTotal Member memberLe := ⟨fun a b => Nat.le_total a.num b.num⟩

instance : IsTrans Member memberLe := ⟨fun _ _ _ => Nat.le_trans⟩

/-- The body of the scan loop (lines 115-145) for one candidate file:
skip names that do not start with a digit, skip unreadable files,
skip files whose domname cannot be parsed; otherwise resolve `dirter`
(default `./input`) against the file directory, derive the domain
dataset path `<dirter>/<domname>_DOMAIN000.nc` and check its
existence with `isfile` (`os.path.isfile`). -/
def memberOfInFile (normp : String → String) (isfile : String → Bool)
    (f : InFileEntry) : Option Member :=
  if ¬ startsWithDigit f.fname then none
  else if ¬ f.readOk then none
  else
    match f.domname? with
    | none => none
    | some dom =>
      let dt := resolve_path normp f.fdir (f.dirter?.getD "./input")
      let ncf := pathJoin dt (dom ++ "_DOMAIN000.nc")
      some ⟨leadingNum f.fname, f.path, f.fname, dom, dt, ncf, isfile ncf⟩

/-- Lines 108-148, `scan_ensemble_members`: build a member record per
qualifying candidate, then sort ascending by ordinal (Python
`list.sort` is stable; insertion sort matches it). -/
def scan_ensemble_members (normp : String → String)
    (isfile : String → Bool) (files : List InFileEntry) : List Member :=
  (files.filterMap (memberOfInFile normp isfile)).insertionSort memberLe

/-- Line 152: the gate is true when the member list is non-empty and
every member has its existence flag set. -/
def all_valid (members : List Member) : Bool :=
  !members.isEmpty && members.all (fun m => m.nc_exists)

/-- Per-member dataset input and output outcomes during bulk
propagation, passed in as an oracle keyed by dataset path: whether
the read-write dataset open succeeds and whether the write-back plus
sync succeeds. -/
structure MemberIO where
  openOk : Bool
  writeOk : Bool
deriving DecidableEq

/-- Dataset events emitted while `save_all_changes` runs.
`writeCurrent` is the write-back of the already-open current dataset
(lines 566-567); `openM`, `writeM` and `closeM` are the per-member
open, write-plus-sync and close calls of the loop (lines 586-600). -/
inductive Ev where
  | writeCurrent
  | openM (path : String)
  | writeM (path : String)
  | closeM (path : String)
deriving DecidableEq

/-- Reported outcome of `save_all_changes`. -/
inductive SaveAllOutcome where
  | refusedNoMembers
  | refusedMissing (missing : List String)
  | refusedNoBulk
  | abortedCurrentSave
  | completed (errors : Nat)
deriving DecidableEq

/-- True for the three gate refusals of lines 550-562. -/
def SaveAllOutcome.isRefusal : SaveAllOutcome → Bool
  | .refusedNoMembers => true
  | .refusedMissing _ => true
  | .refusedNoBulk => true
  | _ => false

/-- One iteration of the member loop (lines 576-611): the current
file is skipped; a failed open raises before any event; a failed
write-plus-sync raises after the open, and the `except` branch closes
the handle; otherwise open, write, close in order.  The in-memory
application of the staged changes between open and write is pure and,
for validated entries, cannot raise (claim C10), so it emits no
event. -/
def processMember (abspath : String → String) (io : String → MemberIO)
    (currentAbs : String) (m : Member) : List Ev × Nat :=
  if abspath m.nc_file = currentAbs then ([], 0)
  else if (io m.nc_file).openOk = false then ([], 1)
  else if (io m.nc_file).writeOk = false then
    ([.openM m.nc_file, .closeM m.nc_file], 1)
  else ([.openM m.nc_file, .writeM m.nc_file, .closeM m.nc_file], 0)

/-- Lines 540-617, `save_all_changes`: refuse when the `all_valid`
gate is down (distinguishing no members from missing dataset files)
or no bulk changes are staged; then write the current dataset (a
failure there returns immediately); then process every member in
order, counting failures; finally report the tally.  `currentWriteOk`
models whether `landuse[:] = landuse_data; data.sync()` (lines
566-567) succeeds. -/
def save_all_changes (abspath : String → String)
    (io : String → MemberIO) (members : List Member)
    (bulk : List Change) (filename : String) (currentWriteOk : Bool) :
    List Ev × SaveAllOutcome :=
  if all_valid members = false then
    if members.isEmpty then ([], .refusedNoMembers)
    else ([], .refusedMissing
      ((members.filter (fun m => m.nc_exists = false)).map
        (fun m => m.nc_file)))
  else if bulk.isEmpty then ([], .refusedNoBulk)
  else if currentWriteOk = false then ([], .abortedCurrentSave)
  else
    let blocks := members.map (processMember abspath io (abspath filename))
    (Ev.writeCurrent :: (blocks.map Prod.fst).flatten,
      .completed (blocks.map Prod.snd).sum)

/-- A member of the loop that fails: not the current file, and its
open or its write raises. -/
def memberFails (abspath : String → String) (io : String → MemberIO)
    (currentAbs : String) (m : Member) : Bool :=
  decide (abspath m.nc_file ≠ currentAbs) &&
    (!(io m.nc_file).openOk || !(io m.nc_file).writeOk)

/-- The multiset of open dataset handles after a list of events,
starting from the handles in `init` (during `save_all_changes` the
current dataset handle, opened at line 79, is always in `init`). -/
def handlesAfter (init : List String) : List Ev → List String
  | [] => init
  | e :: rest =>
    handlesAfter
      (match e with
       | .openM p => init ++ [p]
       | .closeM p => init.erase p
       | _ => init) rest

/-- Handle-state machine over the loop events: at most one member
dataset handle open at a time; a member write or close must name the
handle that is open; a second open while one is open is invalid.
The state is the currently open member handle, `none` for closed. -/
def stepH : Option String → Ev → Option (Option String)
  | st, .writeCurrent => some st
  | none, .openM p => some (some p)
  | some _, .openM _ => none
  | some p, .writeM q => if q = p then some (some p) else none
  | none, .writeM _ => none
  | some p, .closeM q => if q = p then some none else none
  | none, .closeM _ => none

/-- Run the handle-state machine; `none` when the trace violates the
discipline. -/
def runH : Option String → List Ev → Option (Option String)
  | st, [] => some st
  | st, e :: rest =>
    match stepH st e with
    | none => none
    | some st2 => runH st2 rest

/-- A trace is well nested when the machine accepts it starting and
ending with no member handle open. -/
def memberTraceOk (l : List Ev) : Bool :=
  decide (runH none l = some none)

/-- The record persisted by `save_state` at line 58 of
`ueditsetupEnsemble.py`, with keys base_name, count and base_domname.
The json dump and load calls round-trip string and int fields
exactly, so the store is modelled at the record level. -/
structure StateRec where
  base_name : String
  count : Int
  base_domname : String
deriving DecidableEq

/-- Result of `load_state` (lines 63-70): either the parsed record,
or the `sys.exit(1)` after printing the no-paused-run error when the
state file is absent. -/
inductive LoadResult where
  | ok (r : StateRec)
  | noPausedRun
deriving DecidableEq

/-- `save_state` writes the record to the fixed state file; the
filesystem slot for that one well-known name is modelled as an
`Option StateRec`. -/
def save_state (fs : Option StateRec) (base_name : String) (count : Int)
    (base_domname : String) : Option StateRec :=
  let _ := fs
  some ⟨base_name, count, base_domname⟩

/-- `load_state` fails with the no-paused-run error exactly when the
state file is absent. -/
def load_state (fs : Option StateRec) : LoadResult :=
  match fs with
  | none => .noPausedRun
  | some r => .ok r

/-- `os.remove(STATE_FILE)` at the end of a successful resumed phase
(line 105). -/
def clear_state (fs : Option StateRec) : Option StateRec :=
  let _ := fs
  none

theorem ratTrunc_eq_floor {q : ℚ} (h : 0 ≤ q) : ratTrunc q = ⌊q⌋ := by
  simp [ratTrunc, h]

theorem sampleSize_nonneg (nPts : Nat) {p : ℚ} (hp : 0 ≤ p) :
    0 ≤ sampleSize nPts p := by
  have hq : (0 : ℚ) ≤ (nPts : ℚ) * p / 100 := by positivity
  rw [sampleSize, ratTrunc_eq_floor hq]
  exact Int.floor_nonneg.mpr hq

theorem sampleSize_le (nPts : Nat) {p : ℚ} (hp0 : 0 ≤ p) (hp1 : p ≤ 100) :
    sampleSize nPts p ≤ (nPts : ℤ) := by
  have hq : (0 : ℚ) ≤ (nPts : ℚ) * p / 100 := by positivity
  rw [sampleSize, ratTrunc_eq_floor hq]
  have hle : (nPts : ℚ) * p / 100 ≤ (nPts : ℚ) := by
    rw [div_le_iff₀ (by norm_num : (0:ℚ) < 100)]
    have : (nPts : ℚ) * p ≤ (nPts : ℚ) * 100 :=
      mul_le_mul_of_nonneg_left hp1 (by positivity)
    linarith
  calc ⌊(nPts : ℚ) * p / 100⌋ ≤ ⌊(nPts : ℚ)⌋ := Int.floor_le_floor hle
    _ = (nPts : ℤ) := Int.floor_natCast nPts

theorem Grid.set_val (g : Grid) (r c : Nat) (v : Int) (r' c' : Nat) :
    (g.set r c v).val r' c' = if r' = r ∧ c' = c then v else g.val r' c' :=
  rfl

theorem writeCells_val (v : Int) (g : Grid) (ts : List (Nat × Nat))
    (r c : Nat) :
    (writeCells v g ts).val r c = if (r, c) ∈ ts then v else g.val r c := by
  induction ts generalizing g with
  | nil => simp [writeCells]
  | cons t rest ih =>
    show (writeCells v (g.set t.1 t.2 v) rest).val r c = _
    rw [ih]
    by_cases hmem : (r, c) ∈ rest
    · simp [hmem]
    · by_cases heq : (r, c) = t
      · have h1 : r = t.1 := by rw [← heq]
        have h2 : c = t.2 := by rw [← heq]
        simp [hmem, heq, Grid.set_val, h1, h2]
      · have hne : ¬ (r = t.1 ∧ c = t.2) := by
          intro hc
          exact heq (Prod.ext_iff.mpr ⟨hc.1, hc.2⟩)
        simp [hmem, heq, Grid.set_val, hne]

theorem clampRegion_eq_some {rows cols : Nat} {xm ym xM yM : Int}
    {r0 c0 nR nC : Nat}
    (h : clampRegion rows cols xm ym xM yM = some (r0, c0, nR, nC)) :
    1 ≤ nR ∧ 1 ≤ nC ∧
    ym ≤ (r0 : ℤ) ∧ (r0 : ℤ) + nR - 1 ≤ yM ∧ r0 + nR ≤ rows ∧
    xm ≤ (c0 : ℤ) ∧ (c0 : ℤ) + nC - 1 ≤ xM ∧ c0 + nC ≤ cols := by
  unfold clampRegion at h
  dsimp only at h
  split at h
  · exact absurd h (by simp)
  · rename_i hcond
    push_neg at hcond
    obtain ⟨hr, hc⟩ := hcond
    obtain ⟨h1, h2, h3, h4⟩ :
        r0 = (max ym 0).toNat ∧ c0 = (max xm 0).toNat ∧
        nR = (min yM ((rows : Int) - 1) - max ym 0 + 1).toNat ∧
        nC = (min xM ((cols : Int) - 1) - max xm 0 + 1).toNat := by
      have := h
      simp only [Option.some.injEq, Prod.mk.injEq] at this
      exact ⟨this.1.symm, this.2.1.symm, this.2.2.1.symm, this.2.2.2.symm⟩
    have hy1 : ym ≤ max ym 0 := le_max_left _ _
    have hy2 : (0 : ℤ) ≤ max ym 0 := le_max_right _ _
    have hy3 : min yM ((rows : Int) - 1) ≤ yM := min_le_left _ _
    have hy4 : min yM ((rows : Int) - 1) ≤ (rows : Int) - 1 := min_le_right _ _
    have hx1 : xm ≤ max xm 0 := le_max_left _ _
    have hx2 : (0 : ℤ) ≤ max xm 0 := le_max_right _ _
    have hx3 : min xM ((cols : Int) - 1) ≤ xM := min_le_left _ _
    have hx4 : min xM ((cols : Int) - 1) ≤ (cols : Int) - 1 := min_le_right _ _
    omega

theorem clampRegion_target {rows cols : Nat} {xm ym xM yM : Int}
    {r0 c0 nR nC : Nat}
    (h : clampRegion rows cols xm ym xM yM = some (r0, c0, nR, nC))
    {i : Nat} (hi : i < nR * nC) :
    ym ≤ ((targetCell r0 c0 nC i).1 : ℤ) ∧
    ((targetCell r0 c0 nC i).1 : ℤ) ≤ yM ∧
    (targetCell r0 c0 nC i).1 < rows ∧
    xm ≤ ((targetCell r0 c0 nC i).2 : ℤ) ∧
    ((targetCell r0 c0 nC i).2 : ℤ) ≤ xM ∧
    (targetCell r0 c0 nC i).2 < cols := by
  obtain ⟨h1, h2, h3, h4, h5, h6, h7, h8⟩ := clampRegion_eq_some h
  have hC : 0 < nC := h2
  have hdiv : i / nC < nR := (Nat.div_lt_iff_lt_mul hC).mpr hi
  have hmod : i % nC < nC := Nat.mod_lt _ hC
  simp only [targetCell]
  obtain ⟨d, hd⟩ : ∃ d, i / nC = d := ⟨_, rfl⟩
  obtain ⟨m, hm⟩ : ∃ m, i % nC = m := ⟨_, rfl⟩
  rw [hd] at hdiv
  rw [hm] at hmod
  rw [hd, hm]
  refine ⟨?_, ?_, ?_, ?_, ?_, ?_⟩ <;> omega

theorem targetCell_inj {nC : Nat} {r0 c0 : Nat} {i j : Nat}
    (h : targetCell r0 c0 nC i = targetCell r0 c0 nC j) : i = j := by
  unfold targetCell at h
  rw [Prod.mk.injEq] at h
  have hdiv : i / nC = j / nC := by omega
  have hmod : i % nC = j % nC := by omega
  have ei : nC * (i / nC) + i % nC = i := Nat.div_add_mod i nC
  have ej : nC * (j / nC) + j % nC = j := Nat.div_add_mod j nC
  rw [← ei, ← ej, hdiv, hmod]

/-- C1: for every grid, region and percent in [0, 100], `perturb`
(`_apply_region_to_array`) returns `n = floor(n_pts * percent / 100)`
where `n_pts` is the clamped-region cell count; an empty clamped
rectangle returns 0 with no mutation; and the cells it writes are
pairwise distinct and exactly `n` many (sampling without
replacement). -/
theorem claim_C1_perturb_count (draw : Nat → Nat → List Nat)
    (hdraw : DrawSpec draw) (g : Grid) (xm ym xM yM v : Int) (p : ℚ)
    (hp0 : 0 ≤ p) (hp1 : p ≤ 100) (r0 c0 nR nC : Nat) :
    (clampRegion g.rows g.cols xm ym xM yM = none →
      _apply_region_to_array draw g xm ym xM yM v p = some (g, 0)) ∧
    (clampRegion g.rows g.cols xm ym xM yM = some (r0, c0, nR, nC) →
      sampleSize (nR * nC) p = ⌊((nR * nC : Nat) : ℚ) * p / 100⌋ ∧
      (sampleSize (nR * nC) p = 0 →
        _apply_region_to_array draw g xm ym xM yM v p = some (g, 0)) ∧
      (sampleSize (nR * nC) p ≠ 0 →
        ((draw (nR * nC) (sampleSize (nR * nC) p).toNat).map
          (targetCell r0 c0 nC)).Nodup ∧
        (((draw (nR * nC) (sampleSize (nR * nC) p).toNat).map
          (targetCell r0 c0 nC)).length : ℤ) = sampleSize (nR * nC) p ∧
        _apply_region_to_array draw g xm ym xM yM v p =
          some (writeCells v g
            ((draw (nR * nC) (sampleSize (nR * nC) p).toNat).map
              (targetCell r0 c0 nC)),
            sampleSize (nR * nC) p))) := by
  constructor
  · intro hclamp
    unfold _apply_region_to_array
    rw [hclamp]
  · intro hclamp
    have hq : (0 : ℚ) ≤ ((nR * nC : Nat) : ℚ) * p / 100 := by positivity
    refine ⟨by rw [sampleSize, ratTrunc_eq_floor hq], ?_, ?_⟩
    · intro h0
      unfold _apply_region_to_array
      rw [hclamp]
      dsimp only
      rw [if_pos h0]
    · intro hne
      have hn0 : 0 ≤ sampleSize (nR * nC) p := sampleSize_nonneg _ hp0
      have hnle : sampleSize (nR * nC) p ≤ ((nR * nC : Nat) : ℤ) :=
        sampleSize_le _ hp0 hp1
      have htle : (sampleSize (nR * nC) p).toNat ≤ nR * nC :=
        Int.toNat_le.mpr hnle
      obtain ⟨hnd, hlen, hbound⟩ := hdraw (nR * nC) _ htle
      have hchoice : npChoice draw (nR * nC) (sampleSize (nR * nC) p) =
          some (draw (nR * nC) (sampleSize (nR * nC) p).toNat) := by
        unfold npChoice
        rw [if_pos ⟨hn0, htle⟩]
      refine ⟨?_, ?_, ?_⟩
      · refine List.Nodup.map_on ?_ hnd
        intro x _ y _ hxy
        exact targetCell_inj hxy
      · rw [List.length_map, hlen, Int.toNat_of_nonneg hn0]
      · unfold _apply_region_to_array
        rw [hclamp]
        dsimp only
        rw [if_neg hne, hchoice]

/-- C2: `_apply_region_to_array` writes only inside the intersection of
the given region with the grid bounds: any cell outside it keeps its
previous value, and any cell whose value changed now holds
`new_val`. -/
theorem claim_C2_perturb_frame (draw : Nat → Nat → List Nat)
    (hdraw : DrawSpec draw) (g : Grid) (xm ym xM yM v : Int) (p : ℚ)
    (g' : Grid) (n : ℤ)
    (hres : _apply_region_to_array draw g xm ym xM yM v p = some (g', n))
    (r c : Nat) :
    (¬ (xm ≤ (c : ℤ) ∧ (c : ℤ) ≤ xM ∧ ym ≤ (r : ℤ) ∧ (r : ℤ) ≤ yM ∧
        r < g.rows ∧ c < g.cols) → g'.val r c = g.val r c) ∧
    (g'.val r c ≠ g.val r c → g'.val r c = v) := by
  unfold _apply_region_to_array at hres
  cases hclamp : clampRegion g.rows g.cols xm ym xM yM with
  | none =>
    rw [hclamp] at hres
    simp only [Option.some.injEq, Prod.mk.injEq] at hres
    rw [← hres.1]
    exact ⟨fun _ => rfl, fun hc => absurd rfl hc⟩
  | some t =>
    obtain ⟨r0, c0, nR, nC⟩ := t
    rw [hclamp] at hres
    dsimp only at hres
    by_cases h0 : sampleSize (nR * nC) p = 0
    · rw [if_pos h0] at hres
      simp only [Option.some.injEq, Prod.mk.injEq] at hres
      rw [← hres.1]
      exact ⟨fun _ => rfl, fun hc => absurd rfl hc⟩
    · rw [if_neg h0] at hres
      by_cases hcond : 0 ≤ sampleSize (nR * nC) p ∧
          (sampleSize (nR * nC) p).toNat ≤ nR * nC
      · have hchoice : npChoice draw (nR * nC) (sampleSize (nR * nC) p) =
            some (draw (nR * nC) (sampleSize (nR * nC) p).toNat) := by
          unfold npChoice
          rw [if_pos hcond]
        rw [hchoice] at hres
        simp only [Option.some.injEq, Prod.mk.injEq] at hres
        obtain ⟨hg', hn⟩ := hres
        obtain ⟨hnd, hlen, hbound⟩ := hdraw (nR * nC) _ hcond.2
        have hval : g'.val r c =
            if (r, c) ∈ (draw (nR * nC) (sampleSize (nR * nC) p).toNat).map
              (targetCell r0 c0 nC) then v else g.val r c := by
          rw [← hg']
          exact writeCells_val _ _ _ _ _
        constructor
        · intro hout
          have hnotmem : (r, c) ∉
              (draw (nR * nC) (sampleSize (nR * nC) p).toNat).map
                (targetCell r0 c0 nC) := by
            intro hmem
            obtain ⟨i, hi, hti⟩ := List.mem_map.mp hmem
            have hib : i < nR * nC := hbound i hi
            have hbnds := clampRegion_target hclamp hib
            rw [hti] at hbnds
            dsimp only at hbnds
            exact hout ⟨hbnds.2.2.2.1, hbnds.2.2.2.2.1, hbnds.1,
              hbnds.2.1, hbnds.2.2.1, hbnds.2.2.2.2.2⟩
          rw [hval, if_neg hnotmem]
        · intro hchanged
          rw [hval] at hchanged ⊢
          by_cases hmem : (r, c) ∈
              (draw (nR * nC) (sampleSize (nR * nC) p).toNat).map
                (targetCell r0 c0 nC)
          · rw [if_pos hmem]
          · rw [if_neg hmem] at hchanged
            exact absurd rfl hchanged
      · have hnone : npChoice draw (nR * nC) (sampleSize (nR * nC) p) =
            none := by
          unfold npChoice
          rw [if_neg hcond]
        rw [hnone] at hres
        exact absurd hres (by simp)

/-- C10: under the validated precondition that percent lies in
[0, 100], the sample size computed inside `_apply_region_to_array`
never exceeds the population, the without-replacement draw is
well-defined (the `ValueError` branch of `np.random.choice` is
unreachable), and the function never raises. -/
theorem claim_C10_sample_size_safe (draw : Nat → Nat → List Nat)
    (g : Grid) (xm ym xM yM v : Int) (p : ℚ)
    (hp0 : 0 ≤ p) (hp1 : p ≤ 100) (nPts : Nat) :
    sampleSize nPts p ≤ (nPts : ℤ) ∧
    npChoice draw nPts (sampleSize nPts p) =
      some (draw nPts (sampleSize nPts p).toNat) ∧
    _apply_region_to_array draw g xm ym xM yM v p ≠ none := by
  have hle : sampleSize nPts p ≤ (nPts : ℤ) := sampleSize_le _ hp0 hp1
  have hchoice : ∀ m : Nat, npChoice draw m (sampleSize m p) =
      some (draw m (sampleSize m p).toNat) := by
    intro m
    unfold npChoice
    rw [if_pos ⟨sampleSize_nonneg _ hp0, Int.toNat_le.mpr (sampleSize_le _ hp0 hp1)⟩]
  refine ⟨hle, hchoice nPts, ?_⟩
  unfold _apply_region_to_array
  cases hclamp : clampRegion g.rows g.cols xm ym xM yM with
  | none => simp
  | some t =>
    obtain ⟨r0, c0, nR, nC⟩ := t
    dsimp only
    by_cases h0 : sampleSize (nR * nC) p = 0
    · rw [if_pos h0]
      simp
    · rw [if_neg h0, hchoice (nR * nC)]
      simp

theorem rangeDraw_spec : DrawSpec rangeDraw := by
  intro nPts n hn
  refine ⟨List.nodup_range n, by simp [rangeDraw], ?_⟩
  intro i hi
  exact lt_of_lt_of_le (List.mem_range.mp hi) hn

/-- Witness for C1 at a 2 by 2 grid, region (0,0)-(1,1), category 7,
percent 50, with the draw realised by `rangeDraw`. -/
theorem claim_C1_witness :
    (clampRegion 2 2 0 0 1 1 = none →
      _apply_region_to_array rangeDraw (Grid.mk 2 2 fun _ _ => 0)
        0 0 1 1 7 50 = some (Grid.mk 2 2 fun _ _ => 0, 0)) ∧
    (clampRegion 2 2 0 0 1 1 = some (0, 0, 2, 2) →
      sampleSize (2 * 2) 50 = ⌊((2 * 2 : Nat) : ℚ) * 50 / 100⌋ ∧
      (sampleSize (2 * 2) 50 = 0 →
        _apply_region_to_array rangeDraw (Grid.mk 2 2 fun _ _ => 0)
          0 0 1 1 7 50 = some (Grid.mk 2 2 fun _ _ => 0, 0)) ∧
      (sampleSize (2 * 2) 50 ≠ 0 →
        ((rangeDraw (2 * 2) (sampleSize (2 * 2) 50).toNat).map
          (targetCell 0 0 2)).Nodup ∧
        (((rangeDraw (2 * 2) (sampleSize (2 * 2) 50).toNat).map
          (targetCell 0 0 2)).length : ℤ) = sampleSize (2 * 2) 50 ∧
        _apply_region_to_array rangeDraw (Grid.mk 2 2 fun _ _ => 0)
          0 0 1 1 7 50 =
          some (writeCells 7 (Grid.mk 2 2 fun _ _ => 0)
            ((rangeDraw (2 * 2) (sampleSize (2 * 2) 50).toNat).map
              (targetCell 0 0 2)),
            sampleSize (2 * 2) 50))) :=
  claim_C1_perturb_count rangeDraw rangeDraw_spec
    (Grid.mk 2 2 fun _ _ => 0) 0 0 1 1 7 50 (by decide) (by decide) 0 0 2 2

/-- Witness for C2 at a 2 by 2 grid and the fully out-of-bounds region
(5,5)-(9,9), whose clamped rectangle is empty. -/
theorem claim_C2_witness :
    (¬ ((5 : ℤ) ≤ ((0 : Nat) : ℤ) ∧ ((0 : Nat) : ℤ) ≤ 9 ∧
        (5 : ℤ) ≤ ((0 : Nat) : ℤ) ∧ ((0 : Nat) : ℤ) ≤ 9 ∧
        (0 : Nat) < 2 ∧ (0 : Nat) < 2) →
      (Grid.mk 2 2 fun _ _ => 0).val 0 0 =
        (Grid.mk 2 2 fun _ _ => 0).val 0 0) ∧
    ((Grid.mk 2 2 fun _ _ => 0).val 0 0 ≠
        (Grid.mk 2 2 fun _ _ => 0).val 0 0 →
      (Grid.mk 2 2 fun _ _ => 0).val 0 0 = 7) :=
  claim_C2_perturb_frame rangeDraw rangeDraw_spec
    (Grid.mk 2 2 fun _ _ => 0) 5 5 9 9 7 50
    (Grid.mk 2 2 fun _ _ => 0) 0 rfl 0 0

/-- Witness for C10 at population 4 and percent 50. -/
theorem claim_C10_witness :
    sampleSize 4 50 ≤ ((4 : Nat) : ℤ) ∧
    npChoice rangeDraw 4 (sampleSize 4 50) =
      some (rangeDraw 4 (sampleSize 4 50).toNat) ∧
    _apply_region_to_array rangeDraw (Grid.mk 2 2 fun _ _ => 0)
      0 0 1 1 7 50 ≠ none :=
  claim_C10_sample_size_safe rangeDraw (Grid.mk 2 2 fun _ _ => 0)
    0 0 1 1 7 50 (by decide) (by decide) 4

/-- C6: `save_state` followed by `load_state` returns the identical
record; `load_state` with the state file absent - never saved, or
deleted at the end of a successful resumed phase - ends in the
no-paused-run error instead of returning a record. -/
theorem claim_C6_state_roundtrip (fs fs2 : Option StateRec)
    (base_name : String) (count : Int) (base_domname : String) :
    load_state (save_state fs base_name count base_domname) =
      .ok ⟨base_name, count, base_domname⟩ ∧
    load_state none = .noPausedRun ∧
    load_state (clear_state fs2) = .noPausedRun :=
  ⟨rfl, rfl, rfl⟩

/-- C4: when the `all_valid` gate is down (no members scanned, or a
scanned member dataset path missing) or no bulk entries are staged,
`save_all_changes` refuses with a reported reason and emits no dataset
event at all - in particular the current dataset is not written. -/
theorem claim_C4_gate_refusal (abspath : String → String)
    (io : String → MemberIO) (members : List Member)
    (bulk : List Change) (filename : String) (currentWriteOk : Bool)
    (h : all_valid members = false ∨ bulk = []) :
    (save_all_changes abspath io members bulk filename currentWriteOk).1
      = [] ∧
    (save_all_changes abspath io members bulk filename
      currentWriteOk).2.isRefusal = true := by
  unfold save_all_changes
  by_cases hv : all_valid members = false
  · rw [if_pos hv]
    by_cases he : members.isEmpty = true
    · rw [if_pos he]
      exact ⟨rfl, rfl⟩
    · rw [if_neg he]
      exact ⟨rfl, rfl⟩
  · rw [if_neg hv]
    have hb : bulk = [] := by
      cases h with
      | inl hv2 => exact absurd hv2 hv
      | inr hb2 => exact hb2
    rw [if_pos (by rw [hb]; rfl : bulk.isEmpty = true)]
    exact ⟨rfl, rfl⟩

/-- Witness for C4: no members scanned and nothing staged. -/
theorem claim_C4_witness :
    (save_all_changes id (fun _ => MemberIO.mk true true) [] []
      "base_DOMAIN000.nc" true).1 = [] ∧
    (save_all_changes id (fun _ => MemberIO.mk true true) [] []
      "base_DOMAIN000.nc" true).2.isRefusal = true :=
  claim_C4_gate_refusal id (fun _ => MemberIO.mk true true) [] []
    "base_DOMAIN000.nc" true (Or.inl rfl)

/-- C9: in batch/replay mode, if any `--apply` specification of the
invocation fails validation (wrong shape, non-numeric field, percent
out of range, or unknown category), the process exits with code 1 and
the dataset file is never written - earlier valid specifications only
changed the in-memory grid copy. -/
theorem claim_C9_batch_fail_fast (pyInt : String → Option Int)
    (pyFloat : String → Option ℚ) (legend : List Int)
    (draw : Nat → Nat → List Nat) (specs : List String) (g : Grid)
    (h : ∃ s ∈ specs, parse_apply_spec pyInt pyFloat legend s = none) :
    (cli_batch_mode pyInt pyFloat legend draw specs g).abort1 = true ∧
    (cli_batch_mode pyInt pyFloat legend draw specs g).wrote = false := by
  induction specs generalizing g with
  | nil => simp at h
  | cons s rest ih =>
    obtain ⟨t, ht, hbad⟩ := h
    rw [List.mem_cons] at ht
    by_cases hs : parse_apply_spec pyInt pyFloat legend s = none
    · unfold cli_batch_mode
      rw [hs]
      exact ⟨rfl, rfl⟩
    · have ht2 : t ∈ rest := by
        cases ht with
        | inl he => exact absurd (he ▸ hbad) hs
        | inr hr => exact hr
      obtain ⟨ch, hch⟩ : ∃ ch,
          parse_apply_spec pyInt pyFloat legend s = some ch := by
        cases hpc : parse_apply_spec pyInt pyFloat legend s with
        | none => exact absurd hpc hs
        | some ch => exact ⟨ch, rfl⟩
      unfold cli_batch_mode
      rw [hch]
      dsimp only
      cases happ : _apply_region_to_array draw g ch.x_min ch.y_min
          ch.x_max ch.y_max ch.new_val ch.percent with
      | none => exact ⟨rfl, rfl⟩
      | some pr =>
        obtain ⟨g2, n2⟩ := pr
        exact ih g2 ⟨t, ht2, hbad⟩

/-- Witness for C9: a single malformed specification aborts the run
with exit code 1 and no dataset write. -/
theorem claim_C9_witness :
    (cli_batch_mode (fun _ => none) (fun _ => none) [1] rangeDraw
      ["bad"] (Grid.mk 2 2 fun _ _ => 0)).abort1 = true ∧
    (cli_batch_mode (fun _ => none) (fun _ => none) [1] rangeDraw
      ["bad"] (Grid.mk 2 2 fun _ _ => 0)).wrote = false :=
  claim_C9_batch_fail_fast (fun _ => none) (fun _ => none) [1] rangeDraw
    ["bad"] (Grid.mk 2 2 fun _ _ => 0)
    ⟨"bad", by decide, by decide⟩

theorem processMember_snd (abspath : String → String)
    (io : String → MemberIO) (currentAbs : String) (m : Member) :
    (processMember abspath io currentAbs m).2 =
      if memberFails abspath io currentAbs m then 1 else 0 := by
  unfold processMember memberFails
  by_cases h1 : abspath m.nc_file = currentAbs
  · simp [h1]
  · by_cases h2 : (io m.nc_file).openOk = false
    · simp [h1, h2]
    · by_cases h3 : (io m.nc_file).writeOk = false
      · simp [h1, h2, h3]
      · simp [h1, h2, h3]

theorem sum_processMember_eq_countP (abspath : String → String)
    (io : String → MemberIO) (currentAbs : String) (l : List Member) :
    ((l.map (processMember abspath io currentAbs)).map Prod.snd).sum =
      l.countP (memberFails abspath io currentAbs) := by
  induction l with
  | nil => rfl
  | cons m t ih =>
    rw [List.map_cons, List.map_cons, List.sum_cons, ih,
      List.countP_cons, processMember_snd]
    by_cases hf : memberFails abspath io currentAbs m = true
    · rw [if_pos hf]
      omega
    · rw [if_neg hf]
      omega

/-- Counterexample to C3 as stated: three members, every dataset
present, bulk changes staged, the current file being member A; a
write failure on the current member dataset (lines 565-570) makes
`save_all_changes` return immediately with no event at all - members
B and C are healthy yet receive nothing, and no failure tally is
reported.  So a failure on one member (the current one) does abort
propagation to the remaining members. -/
theorem claim_C3_counterexample :
    save_all_changes id (fun _ => MemberIO.mk true true)
      [Member.mk 1 "1r.in" "1r.in" "d1" "i1" "A" true,
       Member.mk 2 "2r.in" "2r.in" "d2" "i2" "B" true,
       Member.mk 3 "3r.in" "3r.in" "d3" "i3" "C" true]
      [Change.mk 0 0 1 1 1 50] "A" false =
      ([], SaveAllOutcome.abortedCurrentSave) := by decide

/-- C3 amended: for every member other than the currently open file,
an open or write failure is caught and counted as that member failure
and the loop continues, the reported error count equals the number of
such failing members, and every healthy non-current member dataset is
still written no matter which other members fail; a write failure on
the current file itself, however, aborts the whole propagation before
any member dataset is touched. -/
theorem claim_C3_isolation_amended (abspath : String → String)
    (io : String → MemberIO) (members : List Member)
    (bulk : List Change) (filename : String)
    (hvalid : all_valid members = true) (hbulk : bulk ≠ [])
    (m : Member) (hm : m ∈ members)
    (hnc : abspath m.nc_file ≠ abspath filename) :
    (save_all_changes abspath io members bulk filename true).2 =
      .completed
        (members.countP (memberFails abspath io (abspath filename))) ∧
    ((io m.nc_file).openOk = true → (io m.nc_file).writeOk = true →
      Ev.writeM m.nc_file ∈
        (save_all_changes abspath io members bulk filename true).1) ∧
    ((io m.nc_file).openOk = false ∨ (io m.nc_file).writeOk = false →
      memberFails abspath io (abspath filename) m = true) ∧
    (save_all_changes abspath io members bulk filename false).1 = [] ∧
    (save_all_changes abspath io members bulk filename false).2 =
      .abortedCurrentSave := by
  have hv2 : ¬ (all_valid members = false) := by simp [hvalid]
  have hbe : bulk.isEmpty = false := by
    cases bulk with
    | nil => exact absurd rfl hbulk
    | cons a t => rfl
  have hbe2 : ¬ (bulk.isEmpty = true) := by simp [hbe]
  refine ⟨?_, ?_, ?_, ?_, ?_⟩
  · unfold save_all_changes
    rw [if_neg hv2, if_neg hbe2, if_neg (by simp)]
    dsimp only
    rw [sum_processMember_eq_countP]
  · intro ho hw
    unfold save_all_changes
    rw [if_neg hv2, if_neg hbe2, if_neg (by simp)]
    dsimp only
    refine List.mem_cons_of_mem _ ?_
    rw [List.map_map, List.mem_flatten]
    refine ⟨(processMember abspath io (abspath filename) m).1, ?_, ?_⟩
    · exact List.mem_map_of_mem _ hm
    · unfold processMember
      rw [if_neg hnc, if_neg (by simp [ho]), if_neg (by simp [hw])]
      simp
  · intro hfail
    unfold memberFails
    rcases hfail with ho | hw
    · simp [hnc, ho]
    · simp [hnc, hw]
  · unfold save_all_changes
    rw [if_neg hv2, if_neg hbe2, if_pos rfl]
  · unfold save_all_changes
    rw [if_neg hv2, if_neg hbe2, if_pos rfl]

/-- Witness for the amended C3: members A, B, C with the current file
A; member B cannot be opened, member C is healthy; the run reports
exactly one failure and member C dataset is still written. -/
theorem claim_C3_witness :
    (save_all_changes id
      (fun s => if s = "B" then MemberIO.mk false true
        else MemberIO.mk true true)
      [Member.mk 1 "1r.in" "1r.in" "d1" "i1" "A" true,
       Member.mk 2 "2r.in" "2r.in" "d2" "i2" "B" true,
       Member.mk 3 "3r.in" "3r.in" "d3" "i3" "C" true]
      [Change.mk 0 0 1 1 1 50] "A" true).2 =
      .completed
        ([Member.mk 1 "1r.in" "1r.in" "d1" "i1" "A" true,
          Member.mk 2 "2r.in" "2r.in" "d2" "i2" "B" true,
          Member.mk 3 "3r.in" "3r.in" "d3" "i3" "C" true].countP
          (memberFails id
            (fun s => if s = "B" then MemberIO.mk false true
              else MemberIO.mk true true) (id "A"))) ∧
    ((if "C" = "B" then MemberIO.mk false true
        else MemberIO.mk true true).openOk = true →
      (if "C" = "B" then MemberIO.mk false true
        else MemberIO.mk true true).writeOk = true →
      Ev.writeM "C" ∈
        (save_all_changes id
          (fun s => if s = "B" then MemberIO.mk false true
            else MemberIO.mk true true)
          [Member.mk 1 "1r.in" "1r.in" "d1" "i1" "A" true,
           Member.mk 2 "2r.in" "2r.in" "d2" "i2" "B" true,
           Member.mk 3 "3r.in" "3r.in" "d3" "i3" "C" true]
          [Change.mk 0 0 1 1 1 50] "A" true).1) ∧
    ((if "C" = "B" then MemberIO.mk false true
        else MemberIO.mk true true).openOk = false ∨
      (if "C" = "B" then MemberIO.mk false true
        else MemberIO.mk true true).writeOk = false →
      memberFails id
        (fun s => if s = "B" then MemberIO.mk false true
          else MemberIO.mk true true) (id "A")
        (Member.mk 3 "3r.in" "3r.in" "d3" "i3" "C" true) = true) ∧
    (save_all_changes id
      (fun s => if s = "B" then MemberIO.mk false true
        else MemberIO.mk true true)
      [Member.mk 1 "1r.in" "1r.in" "d1" "i1" "A" true,
       Member.mk 2 "2r.in" "2r.in" "d2" "i2" "B" true,
       Member.mk 3 "3r.in" "3r.in" "d3" "i3" "C" true]
      [Change.mk 0 0 1 1 1 50] "A" false).1 = [] ∧
    (save_all_changes id
      (fun s => if s = "B" then MemberIO.mk false true
        else MemberIO.mk true true)
      [Member.mk 1 "1r.in" "1r.in" "d1" "i1" "A" true,
       Member.mk 2 "2r.in" "2r.in" "d2" "i2" "B" true,
       Member.mk 3 "3r.in" "3r.in" "d3" "i3" "C" true]
      [Change.mk 0 0 1 1 1 50] "A" false).2 =
      .abortedCurrentSave :=
  claim_C3_isolation_amended id
    (fun s => if s = "B" then MemberIO.mk false true
      else MemberIO.mk true true)
    [Member.mk 1 "1r.in" "1r.in" "d1" "i1" "A" true,
     Member.mk 2 "2r.in" "2r.in" "d2" "i2" "B" true,
     Member.mk 3 "3r.in" "3r.in" "d3" "i3" "C" true]
    [Change.mk 0 0 1 1 1 50] "A" (by decide) (by decide)
    (Member.mk 3 "3r.in" "3r.in" "d3" "i3" "C" true) (by decide)
    (by decide)

theorem runH_cons (st : Option String) (e : Ev) (rest : List Ev) :
    runH st (e :: rest) =
      match stepH st e with
      | none => none
      | some st2 => runH st2 rest := rfl

theorem runH_append (st : Option String) (l1 l2 : List Ev) :
    runH st (l1 ++ l2) =
      (runH st l1).bind (fun st2 => runH st2 l2) := by
  induction l1 generalizing st with
  | nil => rfl
  | cons e t ih =>
    show runH st (e :: (t ++ l2)) = (runH st (e :: t)).bind _
    rw [runH_cons, runH_cons]
    cases stepH st e with
    | none => rfl
    | some st2 => exact ih st2

theorem processMember_runH (abspath : String → String)
    (io : String → MemberIO) (currentAbs : String) (m : Member) :
    runH none (processMember abspath io currentAbs m).1 = some none := by
  unfold processMember
  by_cases h1 : abspath m.nc_file = currentAbs
  · simp [h1, runH]
  · by_cases h2 : (io m.nc_file).openOk = false
    · simp [h1, h2, runH]
    · by_cases h3 : (io m.nc_file).writeOk = false
      · simp [h1, h2, h3, runH, stepH]
      · simp [h1, h2, h3, runH, stepH]

theorem blocks_runH (abspath : String → String) (io : String → MemberIO)
    (currentAbs : String) (l : List Member) :
    runH none
      ((l.map (fun m => (processMember abspath io currentAbs m).1)).flatten)
      = some none := by
  induction l with
  | nil => rfl
  | cons m t ih =>
    rw [List.map_cons, List.flatten_cons, runH_append, processMember_runH]
    exact ih

/-- Counterexample to C7 as stated: two members backed by datasets "A"
and "B", the current file being member A.  The handle on "A" (opened
at line 79 and held until line 623) is open for the whole session, so
after the first two propagation events - the current-file write and
the open of member B dataset - the open writable handles are exactly
["A", "B"]: two ensemble member datasets are open simultaneously. -/
theorem claim_C7_counterexample :
    handlesAfter ["A"]
      (((save_all_changes id (fun _ => MemberIO.mk true true)
        [Member.mk 1 "1r.in" "1r.in" "d1" "i1" "A" true,
         Member.mk 2 "2r.in" "2r.in" "d2" "i2" "B" true]
        [Change.mk 0 0 1 1 1 50] "A" true).1).take 2) = ["A", "B"] ∧
    ([Member.mk 1 "1r.in" "1r.in" "d1" "i1" "A" true,
      Member.mk 2 "2r.in" "2r.in" "d2" "i2" "B" true].map
      (fun m => m.nc_file)) = ["A", "B"] := by decide

/-- C7 amended: during bulk propagation at most one member dataset
handle besides the already-open current dataset handle is open at any
time - each member dataset is opened, written and closed before the
next member dataset is opened, and every event trace of
`save_all_changes` is accepted by the one-extra-handle state machine
starting and ending with no extra handle open.  The current file
handle itself, however, stays open throughout, so the current dataset
and one other member dataset are open simultaneously. -/
theorem claim_C7_single_extra_handle (abspath : String → String)
    (io : String → MemberIO) (members : List Member)
    (bulk : List Change) (filename : String) (currentWriteOk : Bool) :
    memberTraceOk
      (save_all_changes abspath io members bulk filename
        currentWriteOk).1 = true := by
  unfold save_all_changes
  by_cases hv : all_valid members = false
  · rw [if_pos hv]
    by_cases he : members.isEmpty = true
    · rw [if_pos he]
      rfl
    · rw [if_neg he]
      rfl
  · rw [if_neg hv]
    by_cases hb : bulk.isEmpty = true
    · rw [if_pos hb]
      rfl
    · rw [if_neg hb]
      by_cases hw : currentWriteOk = false
      · rw [if_pos hw]
        rfl
      · rw [if_neg hw]
        dsimp only
        unfold memberTraceOk
        rw [List.map_map]
        rw [decide_eq_true_eq]
        rw [show ∀ l, runH none (Ev.writeCurrent :: l) = runH none l from
          fun _ => rfl]
        exact blocks_runH abspath io (abspath filename) members

theorem memberOfInFile_isSome (normp : String → String)
    (isfile : String → Bool) (f : InFileEntry) :
    (memberOfInFile normp isfile f).isSome =
      (startsWithDigit f.fname && f.readOk && f.domname?.isSome) := by
  unfold memberOfInFile
  by_cases h1 : startsWithDigit f.fname
  · by_cases h2 : f.readOk
    · cases hd : f.domname? with
      | none => simp [h1, h2, hd]
      | some dom => simp [h1, h2, hd]
    · simp [h1, h2]
  · simp [h1]

theorem length_filterMap_memberOfInFile (normp : String → String)
    (isfile : String → Bool) (files : List InFileEntry) :
    (files.filterMap (memberOfInFile normp isfile)).length =
      (files.filter (fun f => startsWithDigit f.fname && f.readOk &&
        f.domname?.isSome)).length := by
  induction files with
  | nil => rfl
  | cons f t ih =>
    rw [List.filterMap_cons, List.filter_cons]
    cases hmo : memberOfInFile normp isfile f with
    | none =>
      have hp : (startsWithDigit f.fname && f.readOk &&
          f.domname?.isSome) = false := by
        rw [← memberOfInFile_isSome normp isfile f, hmo]
        rfl
      rw [hp]
      simpa using ih
    | some m =>
      have hp : (startsWithDigit f.fname && f.readOk &&
          f.domname?.isSome) = true := by
        rw [← memberOfInFile_isSome normp isfile f, hmo]
        rfl
      rw [hp]
      simpa using ih

/-- C5: the registry scan returns exactly one member per candidate
file whose basename starts with a decimal digit, which could be read,
and whose domname parses; the result is sorted ascending by ordinal
prefix; a digit-prefixed file with no parsable domname is silently
excluded (it produces no member record at all, so it cannot be
flagged as missing); and every produced member record carries the
ordinal, the parsed domname, `dirter` resolved against that file own
directory, the dataset path `<dirter>/<domname>_DOMAIN000.nc` and its
existence flag. -/
theorem claim_C5_member_scan (normp : String → String)
    (isfile : String → Bool) (files : List InFileEntry)
    (f : InFileEntry) (m : Member) :
    List.Sorted memberLe (scan_ensemble_members normp isfile files) ∧
    (scan_ensemble_members normp isfile files).Perm
      (files.filterMap (memberOfInFile normp isfile)) ∧
    (scan_ensemble_members normp isfile files).length =
      (files.filter (fun f2 => startsWithDigit f2.fname && f2.readOk &&
        f2.domname?.isSome)).length ∧
    (startsWithDigit f.fname = false ∨ f.readOk = false ∨
        f.domname? = none →
      memberOfInFile normp isfile f = none) ∧
    (memberOfInFile normp isfile f = some m →
      m.num = leadingNum f.fname ∧ f.domname? = some m.domname ∧
      m.dirter = resolve_path normp f.fdir (f.dirter?.getD "./input") ∧
      m.nc_file = pathJoin m.dirter (m.domname ++ "_DOMAIN000.nc") ∧
      m.nc_exists = isfile m.nc_file) := by
  refine ⟨?_, ?_, ?_, ?_, ?_⟩
  · exact List.sorted_insertionSort memberLe _
  · exact List.perm_insertionSort memberLe _
  · unfold scan_ensemble_members
    rw [(List.perm_insertionSort memberLe _).length_eq]
    exact length_filterMap_memberOfInFile normp isfile files
  · intro h
    unfold memberOfInFile
    by_cases h1 : startsWithDigit f.fname
    · rw [if_neg (by simp [h1])]
      by_cases h2 : f.readOk
      · rw [if_neg (by simp [h2])]
        have hd : f.domname? = none := by
          rcases h with h | h | h
          · exact absurd h1 (by simp [h])
          · exact absurd h2 (by simp [h])
          · exact h
        rw [hd]
      · rw [if_pos (by simp [h2])]
    · rw [if_pos (by simp [h1])]
  · intro hsome
    unfold memberOfInFile at hsome
    by_cases h1 : startsWithDigit f.fname
    · rw [if_neg (by simp [h1])] at hsome
      by_cases h2 : f.readOk
      · rw [if_neg (by simp [h2])] at hsome
        cases hd : f.domname? with
        | none =>
          rw [hd] at hsome
          exact absurd hsome (by simp)
        | some dom =>
          rw [hd] at hsome
          dsimp only at hsome
          rw [Option.some.injEq] at hsome
          subst hsome
          exact ⟨rfl, rfl, rfl, rfl, rfl⟩
      · rw [if_pos (by simp [h2])] at hsome
        exact absurd hsome (by simp)
    · rw [if_pos (by simp [h1])] at hsome
      exact absurd hsome (by simp)

/-- Witness for C5: three well-formed numbered configuration files,
one non-numbered base file and one malformed numbered file; the scan
is sorted, excludes the malformed file silently, and returns exactly
the three well-formed members. -/
theorem claim_C5_witness :
    List.Sorted memberLe (scan_ensemble_members id (fun _ => true)
      [InFileEntry.mk "/w/2b.in" "2b.in" "/w" true (some "dom2") none,
       InFileEntry.mk "/w/1a.in" "1a.in" "/w" true (some "dom1")
         (some "./terr"),
       InFileEntry.mk "/w/base.in" "base.in" "/w" true (some "dom0") none,
       InFileEntry.mk "/w/4x.in" "4x.in" "/w" true none none,
       InFileEntry.mk "/w/3d.in" "3d.in" "/w" true (some "dom3") none]) ∧
    (scan_ensemble_members id (fun _ => true)
      [InFileEntry.mk "/w/2b.in" "2b.in" "/w" true (some "dom2") none,
       InFileEntry.mk "/w/1a.in" "1a.in" "/w" true (some "dom1")
         (some "./terr"),
       InFileEntry.mk "/w/base.in" "base.in" "/w" true (some "dom0") none,
       InFileEntry.mk "/w/4x.in" "4x.in" "/w" true none none,
       InFileEntry.mk "/w/3d.in" "3d.in" "/w" true (some "dom3") none]).Perm
      ([InFileEntry.mk "/w/2b.in" "2b.in" "/w" true (some "dom2") none,
        InFileEntry.mk "/w/1a.in" "1a.in" "/w" true (some "dom1")
          (some "./terr"),
        InFileEntry.mk "/w/base.in" "base.in" "/w" true (some "dom0") none,
        InFileEntry.mk "/w/4x.in" "4x.in" "/w" true none none,
        InFileEntry.mk "/w/3d.in" "3d.in" "/w" true (some "dom3")
          none].filterMap (memberOfInFile id (fun _ => true))) ∧
    (scan_ensemble_members id (fun _ => true)
      [InFileEntry.mk "/w/2b.in" "2b.in" "/w" true (some "dom2") none,
       InFileEntry.mk "/w/1a.in" "1a.in" "/w" true (some "dom1")
         (some "./terr"),
       InFileEntry.mk "/w/base.in" "base.in" "/w" true (some "dom0") none,
       InFileEntry.mk "/w/4x.in" "4x.in" "/w" true none none,
       InFileEntry.mk "/w/3d.in" "3d.in" "/w" true (some "dom3")
         none]).length =
      ([InFileEntry.mk "/w/2b.in" "2b.in" "/w" true (some "dom2") none,
        InFileEntry.mk "/w/1a.in" "1a.in" "/w" true (some "dom1")
          (some "./terr"),
        InFileEntry.mk "/w/base.in" "base.in" "/w" true (some "dom0") none,
        InFileEntry.mk "/w/4x.in" "4x.in" "/w" true none none,
        InFileEntry.mk "/w/3d.in" "3d.in" "/w" true (some "dom3")
          none].filter (fun f2 => startsWithDigit f2.fname && f2.readOk &&
            f2.domname?.isSome)).length ∧
    (startsWithDigit "4x.in" = false ∨ (true : Bool) = false ∨
        (none : Option String) = none →
      memberOfInFile id (fun _ => true)
        (InFileEntry.mk "/w/4x.in" "4x.in" "/w" true none none) = none) ∧
    (memberOfInFile id (fun _ => true)
        (InFileEntry.mk "/w/4x.in" "4x.in" "/w" true none none) =
        some (Member.mk 1 "/w/1a.in" "1a.in" "dom1" "/w/./terr"
          "/w/./terr/dom1_DOMAIN000.nc" true) →
      (Member.mk 1 "/w/1a.in" "1a.in" "dom1" "/w/./terr"
        "/w/./terr/dom1_DOMAIN000.nc" true).num = leadingNum "4x.in" ∧
      (none : Option String) = some (Member.mk 1 "/w/1a.in" "1a.in" "dom1"
        "/w/./terr" "/w/./terr/dom1_DOMAIN000.nc" true).domname ∧
      (Member.mk 1 "/w/1a.in" "1a.in" "dom1" "/w/./terr"
        "/w/./terr/dom1_DOMAIN000.nc" true).dirter =
        resolve_path id "/w" ((none : Option String).getD "./input") ∧
      (Member.mk 1 "/w/1a.in" "1a.in" "dom1" "/w/./terr"
        "/w/./terr/dom1_DOMAIN000.nc" true).nc_file =
        pathJoin (Member.mk 1 "/w/1a.in" "1a.in" "dom1" "/w/./terr"
          "/w/./terr/dom1_DOMAIN000.nc" true).dirter
          ((Member.mk 1 "/w/1a.in" "1a.in" "dom1" "/w/./terr"
            "/w/./terr/dom1_DOMAIN000.nc" true).domname ++
            "_DOMAIN000.nc") ∧
      (Member.mk 1 "/w/1a.in" "1a.in" "dom1" "/w/./terr"
        "/w/./terr/dom1_DOMAIN000.nc" true).nc_exists =
        (fun _ => true : String → Bool)
          (Member.mk 1 "/w/1a.in" "1a.in" "dom1" "/w/./terr"
            "/w/./terr/dom1_DOMAIN000.nc" true).nc_file) :=
  claim_C5_member_scan id (fun _ => true)
    [InFileEntry.mk "/w/2b.in" "2b.in" "/w" true (some "dom2") none,
     InFileEntry.mk "/w/1a.in" "1a.in" "/w" true (some "dom1")
       (some "./terr"),
     InFileEntry.mk "/w/base.in" "base.in" "/w" true (some "dom0") none,
     InFileEntry.mk "/w/4x.in" "4x.in" "/w" true none none,
     InFileEntry.mk "/w/3d.in" "3d.in" "/w" true (some "dom3") none]
    (InFileEntry.mk "/w/4x.in" "4x.in" "/w" true none none)
    (Member.mk 1 "/w/1a.in" "1a.in" "dom1" "/w/./terr"
      "/w/./terr/dom1_DOMAIN000.nc" true)

theorem natCharsF_has_nonzero : ∀ (fuel n : Nat), n ≠ 0 → n < 10 ^ fuel →
    ∃ ch ∈ natCharsF fuel n, ch ≠ '0' := by
  intro fuel
  induction fuel with
  | zero =>
    intro n h0 hlt
    simp at hlt
    omega
  | succ fuel ih =>
    intro n h0 hlt
    unfold natCharsF
    by_cases h10 : n < 10
    · rw [if_pos h10]
      refine ⟨Nat.digitChar n, by simp, ?_⟩
      have h1 : 1 ≤ n := Nat.pos_of_ne_zero h0
      interval_cases n <;> decide
    · rw [if_neg h10]
      have hq0 : n / 10 ≠ 0 := by omega
      have hqlt : n / 10 < 10 ^ fuel := by
        rw [pow_succ] at hlt
        omega
      obtain ⟨ch, hmem, hne⟩ := ih (n / 10) hq0 hqlt
      exact ⟨ch, List.mem_append_left _ hmem, hne⟩

theorem stripZeros_getLast? (l : List Char) :
    (stripZeros l).getLast? ≠ some '0' := by
  unfold stripZeros
  rw [List.getLast?_reverse]
  generalize l.reverse = t
  induction t with
  | nil => simp
  | cons c t2 ih =>
    rw [List.dropWhile_cons]
    by_cases hc : c = '0'
    · rw [if_pos (by simp [hc])]
      exact ih
    · rw [if_neg (by simp [hc])]
      simp [hc]

theorem stripZeros_ne_nil {l : List Char} (h : ∃ ch ∈ l, ch ≠ '0') :
    stripZeros l ≠ [] := by
  unfold stripZeros
  intro hc
  rw [List.reverse_eq_nil_iff, List.dropWhile_eq_nil_iff] at hc
  obtain ⟨ch, hm, hne⟩ := h
  have h2 := hc ch (List.mem_reverse.mpr hm)
  simp at h2
  exact hne h2

theorem fracPart_no_trailing_zero {fp : Nat} (h0 : fp ≠ 0) :
    fracPart fp ≠ [] ∧ (fracPart fp).getLast? ≠ some '0' := by
  constructor
  · refine stripZeros_ne_nil ?_
    have hfuel : fp < 10 ^ (fp + 1) := by
      calc fp < 10 ^ fp := Nat.lt_pow_self (by norm_num) fp
        _ ≤ 10 ^ (fp + 1) := Nat.pow_le_pow_right (by norm_num)
          (Nat.le_succ fp)
    obtain ⟨ch, hmem, hne⟩ := natCharsF_has_nonzero (fp + 1) fp h0 hfuel
    exact ⟨ch, List.mem_append_right _ hmem, hne⟩
  · exact stripZeros_getLast? _

/-- C8: the rendered replay command has one `--apply` token per
full-ledger entry, in exactly the recorded order; the replay string
for the ledger `[(0,0,5,5,3,50.0), (10,10,20,20,7,100)]` is exactly
`--apply 0,0,5,5,3,50 --apply 10,10,20,20,7,100` (a recorded 50.0
renders as 50 and 100 as 100); and the fractional part emitted for
any percent never carries a trailing zero. -/
theorem claim_C8_replay_rendering (ledger : List Change) (k : Nat)
    (fp : Nat) (hfp : fp ≠ 0) :
    (replayTokens ledger).length = ledger.length ∧
    (replayTokens ledger)[k]? = (ledger[k]?).map applyToken ∧
    render_replay [Change.mk 0 0 5 5 3 50, Change.mk 10 10 20 20 7 100] =
      "--apply 0,0,5,5,3,50 --apply 10,10,20,20,7,100" ∧
    fracPart fp ≠ [] ∧
    (fracPart fp).getLast? ≠ some '0' := by
  refine ⟨?_, ?_, by decide, (fracPart_no_trailing_zero hfp).1,
    (fracPart_no_trailing_zero hfp).2⟩
  · simp [replayTokens]
  · simp [replayTokens, List.getElem?_map]

/-- Witness for C8 at the spec example ledger, index 1 and remainder
fraction 5. -/
theorem claim_C8_witness :
    (replayTokens [Change.mk 0 0 5 5 3 50,
      Change.mk 10 10 20 20 7 100]).length =
      ([Change.mk 0 0 5 5 3 50, Change.mk 10 10 20 20 7 100] :
        List Change).length ∧
    (replayTokens [Change.mk 0 0 5 5 3 50,
      Change.mk 10 10 20 20 7 100])[1]? =
      (([Change.mk 0 0 5 5 3 50, Change.mk 10 10 20 20 7 100] :
        List Change)[1]?).map applyToken ∧
    render_replay [Change.mk 0 0 5 5 3 50, Change.mk 10 10 20 20 7 100] =
      "--apply 0,0,5,5,3,50 --apply 10,10,20,20,7,100" ∧
    fracPart 5 ≠ [] ∧
    (fracPart 5).getLast? ≠ some '0' :=
  claim_C8_replay_rendering
    [Change.mk 0 0 5 5 3 50, Change.mk 10 10 20 20 7 100] 1 5 (by decide)
